import Mathlib

/-!
Shallow embedding of the lzop container reader/writer implemented in
`src/lzo.py` (class `LzoFile`).  Bytes are modelled as `Nat`s, a file as a
`List Nat`.  Python exceptions are modelled by the `PyErr` sum type and
fallible operations return `Except PyErr _`.  The external `_lzo` module
(the LZO block compressor/decompressor) is passed in as function
parameters; its Adler-32 accumulator is the RFC 1950 accumulator that the
specification states as the external checksum contract
(`adler32(bytes, state) -> state`, initial state 1).
-/

/-- Python exception kinds raised by `src/lzo.py`. `ioError` covers
`IOError`, `lzoError` the `_lzo.error` class, `assertError` a failed
`assert`, `structError` a `struct.unpack` on short input, `typeError` an
`ord` applied to empty bytes, `nameError` an unbound local variable,
`valueError` a `ValueError`, `attrError` an `AttributeError` on `None`. -/
inductive PyErr where
  | ioError
  | lzoError
  | assertError
  | structError
  | typeError
  | nameError
  | valueError
  | attrError
deriving Repr, DecidableEq

/-- The 9-byte lzop signature (`MAGIC` in `src/lzo.py`). -/
def MAGIC : List Nat := [0x89, 0x4C, 0x5A, 0x4F, 0x00, 0x0D, 0x0A, 0x1A, 0x0A]

def READ : Nat := 1
def WRITE : Nat := 2

def ADLER32_INIT_VALUE : Nat := 1
def CRC32_INIT_VALUE : Nat := 0

def LZOP_VERSION : Nat := 0x1030
def LZO_LIB_VERSION : Nat := 0x0940

def BLOCK_SIZE : Nat := 128 * 1024
def MAX_BLOCK_SIZE : Nat := 64 * 1024 * 1024

def F_ADLER32_D : Nat := 0x00000001
def F_ADLER32_C : Nat := 0x00000002
def F_STDIN : Nat := 0x00000004
def F_STDOUT : Nat := 0x00000008
def F_NAME_DEFAULT : Nat := 0x00000010
def F_DOSISH : Nat := 0x00000020
def F_H_EXTRA_FIELD : Nat := 0x00000040
def F_H_GMTDIFF : Nat := 0x00000080
def F_CRC32_D : Nat := 0x00000100
def F_CRC32_C : Nat := 0x00000200
def F_MULTIPART : Nat := 0x00000400
def F_H_FILTER : Nat := 0x00000800
def F_H_CRC32 : Nat := 0x00001000
def F_H_PATH : Nat := 0x00002000
def F_MASK : Nat := 0x00003FFF

/-- Big-endian 2-byte encoding, `struct.pack(">H", v)`. -/
def be16 (v : Nat) : List Nat := [v / 256 % 256, v % 256]

/-- Big-endian 4-byte encoding, `struct.pack(">I", v)`. -/
def be32 (v : Nat) : List Nat :=
  [v / 16777216 % 256, v / 65536 % 256, v / 256 % 256, v % 256]

/-- Big-endian decoding of a byte list, as `struct.unpack(">H"/">I", _)`. -/
def beVal (bs : List Nat) : Nat := bs.foldl (fun a b => a * 256 + b) 0

/-- One byte of the RFC 1950 Adler-32 accumulator: the low 16 bits hold the
running byte sum, the high 16 bits the running sum of sums, both mod 65521. -/
def adlerStep (s b : Nat) : Nat :=
  ((s / 65536 + (s % 65536 + b) % 65521) % 65521) * 65536 + (s % 65536 + b) % 65521

/-- The external checksum collaborator `lzo_adler32(bytes, state)`:
folds `bytes` in order into `state` (spec section 6, RFC 1950). -/
def lzo_adler32 (bs : List Nat) (s : Nat) : Nat := bs.foldl adlerStep s

/-- The concatenation of a list of byte blocks, `b"".join(result)`. -/
def joinl : List (List Nat) → List Nat
  | [] => []
  | b :: r => b ++ joinl r

/-- Reader-side state of the checksum-tracked primitive codec: the unread
bytes of the underlying file object, and the `self.adler32` accumulator. -/
structure RState where
  inp : List Nat
  adler : Nat
deriving Repr, DecidableEq

/-- `LzoFile._read_c(n)`: read `n` bytes (short at end of file, like
`fileobj.read`) and fold them into the Adler-32 accumulator. -/
def read_c (n : Nat) (s : RState) : List Nat × RState :=
  (s.inp.take n, ⟨s.inp.drop n, lzo_adler32 (s.inp.take n) s.adler⟩)

/-- `LzoFile._read32_c`: tracked big-endian u32; `struct.unpack` raises on
fewer than 4 bytes. -/
def read32_c (s : RState) : Except PyErr (Nat × RState) :=
  let r := read_c 4 s
  if r.1.length = 4 then .ok (beVal r.1, r.2) else .error .structError

/-- `LzoFile._read16_c`: tracked big-endian u16. -/
def read16_c (s : RState) : Except PyErr (Nat × RState) :=
  let r := read_c 2 s
  if r.1.length = 2 then .ok (beVal r.1, r.2) else .error .structError

/-- `LzoFile._read8_c`: tracked single byte via `ord`; `ord` of empty bytes
raises `TypeError`. -/
def read8_c (s : RState) : Except PyErr (Nat × RState) :=
  let r := read_c 1 s
  match r.1 with
  | [b] => .ok (b, r.2)
  | _ => .error .typeError

/-- `LzoFile._read32`: raw (untracked) big-endian u32 on the tracked-reader
state; the accumulator is left untouched. -/
def read32r (s : RState) : Except PyErr (Nat × RState) :=
  if 4 ≤ s.inp.length then .ok (beVal (s.inp.take 4), ⟨s.inp.drop 4, s.adler⟩)
  else .error .structError

/-- `LzoFile._read32` during block framing, where no checksum state is in
play: raw big-endian u32 straight off the byte stream. -/
def u32 (inp : List Nat) : Except PyErr (Nat × List Nat) :=
  if 4 ≤ inp.length then .ok (beVal (inp.take 4), inp.drop 4) else .error .structError

/-- Writer-side state of the tracked primitive codec: bytes emitted so far
and the `self.adler32` accumulator. -/
structure WState where
  out : List Nat
  adler : Nat
deriving Repr, DecidableEq

/-- `LzoFile._write_c`: emit bytes and fold them into the accumulator. -/
def write_c (s : WState) (bs : List Nat) : WState :=
  ⟨s.out ++ bs, lzo_adler32 bs s.adler⟩

/-- `LzoFile._write32_c`. -/
def write32_c (s : WState) (v : Nat) : WState := write_c s (be32 v)

/-- `LzoFile._write16_c`. -/
def write16_c (s : WState) (v : Nat) : WState := write_c s (be16 v)

/-- `LzoFile._write8_c`; every call site keeps `v < 256` (`struct.pack("B")`
would raise otherwise). -/
def write8_c (s : WState) (v : Nat) : WState := write_c s [v]

theorem beVal_be32 (v : Nat) (hv : v < 4294967296) : beVal (be32 v) = v := by
  simp only [be32, beVal, List.foldl]
  omega

theorem beVal_be16 (v : Nat) (hv : v < 65536) : beVal (be16 v) = v := by
  simp only [be16, beVal, List.foldl]
  omega

theorem be32_length (v : Nat) : (be32 v).length = 4 := rfl

theorem be16_length (v : Nat) : (be16 v).length = 2 := rfl

theorem take_append_len (xs ys : List Nat) : (xs ++ ys).take xs.length = xs := by
  induction xs with
  | nil => rfl
  | cons a t ih => simp [List.take, ih]

theorem drop_append_len (xs ys : List Nat) : (xs ++ ys).drop xs.length = ys := by
  induction xs with
  | nil => rfl
  | cons a t ih => simp [List.drop, ih]

theorem adler_append (xs ys : List Nat) (a : Nat) :
    lzo_adler32 ys (lzo_adler32 xs a) = lzo_adler32 (xs ++ ys) a := by
  simp [lzo_adler32, List.foldl_append]

theorem adlerStep_lt (s b : Nat) : adlerStep s b < 4294967296 := by
  unfold adlerStep
  have h1 : (s / 65536 + (s % 65536 + b) % 65521) % 65521 < 65521 := Nat.mod_lt _ (by decide)
  have h2 : (s % 65536 + b) % 65521 < 65521 := Nat.mod_lt _ (by decide)
  omega

theorem adler_lt (bs : List Nat) (a : Nat) (ha : a < 4294967296) :
    lzo_adler32 bs a < 4294967296 := by
  induction bs generalizing a with
  | nil => exact ha
  | cons x t ih => exact ih (adlerStep a x) (adlerStep_lt a x)

/-- The header record parsed by `LzoFile._read_header`; fields that the
source only assigns under a version or flag condition are `Option`s. -/
structure Header where
  version : Nat
  libver : Nat
  ver_need_ext : Option Nat
  method : Nat
  level : Option Nat
  flags : Nat
  ffilter : Option Nat
  compress_mode : Nat
  mtime_low : Nat
  mtime_high : Option Nat
  name : List Nat
  header_checksum : Nat
  extra : Option (List Nat)
deriving Repr, DecidableEq

/-- `LzoFile._read_header` for a stream whose `verify_checksum` flag is
`verify`.  The accumulator is reset to `ADLER32_INIT_VALUE` on entry; the
never-updated `self.crc32` stays `CRC32_INIT_VALUE`.  Note that the source
does not mask `flags` with `F_MASK`, and reads the filter word with the raw
`_read32` (not `_read32_c`). -/
def read_header (verify : Bool) (s : RState) : Except PyErr (Header × RState) :=
  let s : RState := ⟨s.inp, ADLER32_INIT_VALUE⟩
  match read16_c s with
  | .error e => .error e
  | .ok (version, s) =>
  match read16_c s with
  | .error e => .error e
  | .ok (libver, s) =>
  match (if 0x0940 < version then
          match read16_c s with
          | .error e => .error e
          | .ok (v, s) =>
            if LZOP_VERSION < v then .error .ioError
            else if v < 0x0900 then .error .ioError
            else .ok (some v, s)
        else .ok (none, s) : Except PyErr (Option Nat × RState)) with
  | .error e => .error e
  | .ok (ver_need_ext, s) =>
  match read8_c s with
  | .error e => .error e
  | .ok (method, s) =>
  if ¬ (method = 1 ∨ method = 2 ∨ method = 3) then .error .assertError
  else
  match (if 0x0940 ≤ version then
          match read8_c s with
          | .error e => .error e
          | .ok (v, s) => .ok (some v, s)
        else .ok (none, s) : Except PyErr (Option Nat × RState)) with
  | .error e => .error e
  | .ok (level, s) =>
  match read32_c s with
  | .error e => .error e
  | .ok (flags, s) =>
  if flags &&& F_H_CRC32 ≠ 0 then .error .lzoError
  else
  match (if flags &&& F_H_FILTER ≠ 0 then
          match read32r s with
          | .error e => .error e
          | .ok (v, s) => .ok (some v, s)
        else .ok (none, s) : Except PyErr (Option Nat × RState)) with
  | .error e => .error e
  | .ok (ffilter, s) =>
  match read32_c s with
  | .error e => .error e
  | .ok (compress_mode, s) =>
  match read32_c s with
  | .error e => .error e
  | .ok (mtime_low, s) =>
  match (if 0x0940 ≤ version then
          match read32_c s with
          | .error e => .error e
          | .ok (v, s) => .ok (some v, s)
        else .ok (none, s) : Except PyErr (Option Nat × RState)) with
  | .error e => .error e
  | .ok (mtime_high, s) =>
  match read8_c s with
  | .error e => .error e
  | .ok (l, s) =>
  match read_c l s with
  | (name, s) =>
  let checksum := if flags &&& F_H_CRC32 ≠ 0 then CRC32_INIT_VALUE else s.adler
  match read32_c s with
  | .error e => .error e
  | .ok (header_checksum, s) =>
  if verify ∧ checksum ≠ header_checksum then .error .assertError
  else
  match (if flags &&& F_H_EXTRA_FIELD ≠ 0 then
          match read32_c s with
          | .error e => .error e
          | .ok (l2, s) =>
          match read_c l2 s with
          | (extra, s) =>
          let checksum2 := if flags &&& F_H_CRC32 ≠ 0 then CRC32_INIT_VALUE else s.adler
          match read32_c s with
          | .error e => .error e
          | .ok (ec, s) =>
            if verify ∧ checksum2 ≠ ec then .error .assertError
            else .ok (some extra, s)
        else .ok (none, s) : Except PyErr (Option (List Nat) × RState)) with
  | .error e => .error e
  | .ok (extra, s) =>
    .ok ({ version := version, libver := libver, ver_need_ext := ver_need_ext,
           method := method, level := level, flags := flags, ffilter := ffilter,
           compress_mode := compress_mode, mtime_low := mtime_low,
           mtime_high := mtime_high, name := name,
           header_checksum := header_checksum, extra := extra }, s)

/-- Evaluation of a Python local that may be unbound: `none` models a name
that was never assigned, so using it raises `NameError`. -/
def getVar : Option Nat → Except PyErr Nat
  | some v => .ok v
  | none => .error .nameError

/-- `LzoFile._read_block`: reads one framed block off the raw byte stream
`inp`; `dec` is the external `decompress_block(bytes, dst_len)` primitive.
Returns `none` for the zero-length terminator record.  The conditional
locals `d_adler32`, `d_crc32`, `c_adler32`, `c_crc32` are `Option`s read
back through `getVar`, faithfully raising `NameError` when the source would
use one that was never bound. -/
def read_block (dec : List Nat → Nat → List Nat) (flags : Nat) (verify : Bool)
    (inp : List Nat) : Except PyErr (Option (List Nat) × List Nat) :=
  match u32 inp with
  | .error e => .error e
  | .ok (dst_len, inp) =>
  if dst_len = 0 then .ok (none, inp)
  else if MAX_BLOCK_SIZE < dst_len then .error .lzoError
  else
  match u32 inp with
  | .error e => .error e
  | .ok (src_len, inp) =>
  match (if flags &&& F_ADLER32_D ≠ 0 then
          match u32 inp with
          | .error e => .error e
          | .ok (v, inp) => .ok (some v, inp)
        else .ok (none, inp) : Except PyErr (Option Nat × List Nat)) with
  | .error e => .error e
  | .ok (d_adler32, inp) =>
  match (if flags &&& F_CRC32_D ≠ 0 then
          match u32 inp with
          | .error e => .error e
          | .ok (v, inp) => .ok (some v, inp)
        else .ok (none, inp) : Except PyErr (Option Nat × List Nat)) with
  | .error e => .error e
  | .ok (d_crc32, inp) =>
  match (if flags &&& F_ADLER32_C ≠ 0 then
          if src_len < dst_len then
            match u32 inp with
            | .error e => .error e
            | .ok (v, inp) => .ok (some v, inp)
          else
            match getVar d_adler32 with
            | .error e => .error e
            | .ok dv => .ok (some dv, inp)
        else .ok (none, inp) : Except PyErr (Option Nat × List Nat)) with
  | .error e => .error e
  | .ok (c_adler32, inp) =>
  match (if flags &&& F_CRC32_C ≠ 0 then
          if src_len < dst_len then
            match u32 inp with
            | .error e => .error e
            | .ok (v, inp) => .ok (some v, inp)
          else
            match getVar d_crc32 with
            | .error e => .error e
            | .ok dv => .ok (some dv, inp)
        else .ok (none, inp) : Except PyErr (Option Nat × List Nat)) with
  | .error e => .error e
  | .ok (c_crc32, inp) =>
  let block := inp.take src_len
  let inp := inp.drop src_len
  let uncompressed := if src_len < dst_len then dec block dst_len else block
  match (if verify ∧ flags &&& F_ADLER32_C ≠ 0 then
          match getVar c_adler32 with
          | .error e => .error e
          | .ok cv =>
            if lzo_adler32 block ADLER32_INIT_VALUE ≠ cv then .error .assertError
            else .ok ()
        else .ok () : Except PyErr Unit) with
  | .error e => .error e
  | .ok _ =>
  match (if verify ∧ flags &&& F_ADLER32_D ≠ 0 then
          match getVar d_adler32 with
          | .error e => .error e
          | .ok dv =>
            if lzo_adler32 uncompressed ADLER32_INIT_VALUE ≠ dv then .error .assertError
            else .ok ()
        else .ok () : Except PyErr Unit) with
  | .error e => .error e
  | .ok _ =>
  let _ := c_crc32
  .ok (some uncompressed, inp)

/-- The flags the WRITE constructor accumulates:
`flags = 0; flags |= F_ADLER32_D; flags |= F_ADLER32_C`. -/
def writerFlags : Nat := (0 ||| F_ADLER32_D) ||| F_ADLER32_C

/-- `LzoFile._write_header` from the WRITE-mode constructor state
(`version = LZOP_VERSION`, `libver = LZO_LIB_VERSION`, `method = 1`,
`level = 1`, `flags = writerFlags`, `mtime_low = mtime_high = 0`).  Note
the seventh field writes `self.mode` — the stream-mode constant `WRITE`,
i.e. 2 — where the lzop file-mode belongs, while the `compress_mode = 0`
set in the constructor is never written.  The source asserts
`len(name) < 255`. -/
def write_header (name : List Nat) : WState :=
  let s : WState := ⟨[], ADLER32_INIT_VALUE⟩
  let s := write16_c s LZOP_VERSION
  let s := write16_c s LZO_LIB_VERSION
  let s := write16_c s 0x0940
  let s := write8_c s 1
  let s := write8_c s 1
  let s := write32_c s writerFlags
  let s := write32_c s WRITE
  let s := write32_c s 0
  let s := write32_c s 0
  let s := write8_c s name.length
  let s := if 0 < name.length then write_c s name else s
  write32_c s s.adler

/-- The bytes `_write_header` leaves on the file object. -/
def writeHeaderBytes (name : List Nat) : List Nat := (write_header name).out

/-- The header bytes from the version field through the name inclusive, as
the writer lays them out (`writerFlags = 3`, file-mode slot = `WRITE` = 2). -/
def headerCoreW (name : List Nat) : List Nat :=
  be16 0x1030 ++ be16 0x0940 ++ be16 0x0940 ++ [1] ++ [1] ++ be32 3 ++ be32 2 ++
    be32 0 ++ be32 0 ++ [name.length] ++ name

/-- `LzoFile._write_block`: frame one plaintext block; `compress` is the
external `compress_block(bytes, method, level)` primitive.  A zero-length
block writes only its length field; a block whose compressed form is not
strictly smaller is stored raw with `compressed_len = uncompressed_len` and
no c-adler field. -/
def write_block (compress : List Nat → Nat → Nat → List Nat) (method level : Nat)
    (block : List Nat) : List Nat :=
  be32 block.length ++
    (if block.length = 0 then []
     else
      let d_adler32 := lzo_adler32 block ADLER32_INIT_VALUE
      let compressed := compress block method level
      let c_adler32 := lzo_adler32 compressed ADLER32_INIT_VALUE
      if compressed.length < block.length then
        be32 compressed.length ++ be32 d_adler32 ++ be32 c_adler32 ++ compressed
      else
        be32 block.length ++ be32 d_adler32 ++ block)

/-- The chunking loop of `LzoFile.write`
(`while off + BLOCK_SIZE < len(content)`), written with a fuel parameter
bounding the number of iterations; every iteration consumes `BLOCK_SIZE`
bytes, so any `fuel ≥ content.length` is enough and the fuel-exhausted
branch is never taken by `chunks` below. -/
def chunksF : Nat → List Nat → List (List Nat)
  | 0, content => [content]
  | fuel + 1, content =>
    if BLOCK_SIZE < content.length then
      content.take BLOCK_SIZE :: chunksF fuel (content.drop BLOCK_SIZE)
    else [content]

/-- The windows `LzoFile.write` emits for `content`, in order: full
`BLOCK_SIZE` windows followed by the final (possibly short, possibly empty)
remainder window. -/
def chunks (content : List Nat) : List (List Nat) := chunksF content.length content

/-- Everything one `LzoFile.write(content)` call appends to the file
object: each window through `_write_block`, then the u32-zero terminator. -/
def writeBody (compress : List Nat → Nat → Nat → List Nat) (method level : Nat)
    (content : List Nat) : List Nat :=
  joinl ((chunks content).map (write_block compress method level)) ++ be32 0

/-- The whole container produced by constructing a WRITE-mode `LzoFile`
(which emits magic and header eagerly) and calling `write(content)` once. -/
def writeFile (compress : List Nat → Nat → Nat → List Nat) (name content : List Nat) :
    List Nat :=
  MAGIC ++ writeHeaderBytes name ++ writeBody compress 1 1 content

/-- The `LzoFile` instance state the claims exercise.  `fileobj = none`
models a closed stream (`close()` sets `self.fileobj = None`); for a
READ-mode stream the payload is the not-yet-consumed bytes of the file,
for a WRITE-mode stream the bytes written so far.  `buf`/`buf_len` are
`self._buf`/`self._buf_len`, `offset` is the logical offset. -/
structure LzoFile where
  mode : Nat
  fileobj : Option (List Nat)
  method : Nat
  level : Nat
  flags : Nat
  verify : Bool
  buf : List (List Nat)
  buf_len : Nat
  offset : Nat
deriving Repr, DecidableEq

/-- READ-mode construction: `_read_magic` (9 bytes compared against the
signature, `IOError` on mismatch) followed by `_read_header`. -/
def openRead (verify : Bool) (file : List Nat) : Except PyErr LzoFile :=
  if file.take 9 = MAGIC then
    match read_header verify ⟨file.drop 9, ADLER32_INIT_VALUE⟩ with
    | .error e => .error e
    | .ok (hdr, s) =>
      .ok { mode := READ, fileobj := some s.inp, method := hdr.method,
            level := hdr.level.getD 0, flags := hdr.flags, verify := verify,
            buf := [], buf_len := 0, offset := 0 }
  else .error .ioError

/-- WRITE-mode construction: fixed fields, then `_write_magic` and
`_write_header` emitted eagerly. -/
def openWrite (name : List Nat) : LzoFile :=
  { mode := WRITE, fileobj := some (MAGIC ++ writeHeaderBytes name), method := 1,
    level := 1, flags := writerFlags, verify := true, buf := [], buf_len := 0,
    offset := 0 }

/-- `LzoFile.close`: releases the file object (`self.fileobj = None`). -/
def closeF (st : LzoFile) : LzoFile := { st with fileobj := none }

/-- The drain loop of `LzoFile._read_from_buf` (`while self._buf: block =
self._buf.pop(0) ...`).  `bl` is the `self._buf_len` on entry; note the
source updates `_buf_len` only in the split branch (via `_clear_buf` then
`+= len(remain)`), so the `<`/`=` branches and the empty-buffer exit leave
the original count behind, and the split branch discards any blocks still
queued behind the split one.  Returns (joined bytes, new `_buf`, new
`_buf_len`). -/
def rfb_loop (bl size : Nat) :
    List (List Nat) → Nat → List (List Nat) → List Nat × List (List Nat) × Nat
  | [], _, result => (joinl result, [], bl)
  | block :: rest, buf_read, result =>
    if buf_read + block.length < size then
      rfb_loop bl size rest (buf_read + block.length) (result ++ [block])
    else if buf_read + block.length = size then
      (joinl (result ++ [block]), rest, bl)
    else
      (joinl (result ++ [block.take (size - buf_read)]),
        [block.drop (size - buf_read)], (block.drop (size - buf_read)).length)

/-- `LzoFile._read_from_buf(size)`: asserts `self._buf_len >= size`, then
drains. -/
def read_from_buf (buf : List (List Nat)) (bl size : Nat) :
    Except PyErr (List Nat × List (List Nat) × Nat) :=
  if bl < size then .error .assertError else .ok (rfb_loop bl size buf 0 [])

/-- The block-fetch loop of `LzoFile.read`
(`while size == -1 or self._buf_len < size`), with a fuel parameter
bounding iterations; each iteration consumes at least 8 bytes of input, so
the `fuel = inp.length + 1` passed by `read` makes the fuel-exhausted
branch unreachable.  A fetched block is appended only if non-empty
(`if block:`); an empty or terminator block breaks the loop. -/
def read_fillF (dec : List Nat → Nat → List Nat) (flags : Nat) (verify : Bool)
    (size : Int) :
    Nat → List Nat → List (List Nat) → Nat →
      Except PyErr (List Nat × List (List Nat) × Nat)
  | 0, inp, buf, bl => .ok (inp, buf, bl)
  | fuel + 1, inp, buf, bl =>
    if size = -1 ∨ (bl : Int) < size then
      match read_block dec flags verify inp with
      | .error e => .error e
      | .ok (none, inp') => .ok (inp', buf, bl)
      | .ok (some b, inp') =>
        if b = [] then .ok (inp', buf, bl)
        else read_fillF dec flags verify size fuel inp' (buf ++ [b]) (bl + b.length)
    else .ok (inp, buf, bl)

/-- `LzoFile.read(size)` for `size = -1` or `size ≥ 0`: `_check_closed`,
mode check, block-fetch loop, then `self.offset += to_read` and
`_read_from_buf(to_read)`. -/
def readF (dec : List Nat → Nat → List Nat) (size : Int) (st : LzoFile) :
    Except PyErr (List Nat × LzoFile) :=
  match st.fileobj with
  | none => .error .valueError
  | some data =>
    if st.mode ≠ READ then .error .ioError
    else
      match read_fillF dec st.flags st.verify size (data.length + 1) data st.buf st.buf_len with
      | .error e => .error e
      | .ok (data', buf, bl) =>
        let to_read := if size = -1 then bl else size.toNat
        match read_from_buf buf bl to_read with
        | .error e => .error e
        | .ok (bytes, buf2, bl2) =>
          .ok (bytes,
            { st with
              fileobj := some data'
              buf := buf2
              buf_len := bl2
              offset := st.offset + to_read })

/-- `LzoFile.write(content)`: no closed-stream guard — with a released file
object the first `self.fileobj.write` raises `AttributeError`.  Appends
every window's block record and then the u32-zero terminator; the logical
offset is not touched. -/
def writeF (compress : List Nat → Nat → Nat → List Nat) (st : LzoFile)
    (content : List Nat) : Except PyErr LzoFile :=
  match st.fileobj with
  | none => .error .attrError
  | some out =>
    .ok { st with fileobj := some (out ++ writeBody compress st.method st.level content) }

/-- The `for i in range(count // 1024): self.write(1024 * '\0')` padding
loop of `LzoFile.seek`; the `'\0'`-string payloads are modelled as zero
bytes. -/
def padWrites (compress : List Nat → Nat → Nat → List Nat) :
    LzoFile → Nat → Except PyErr LzoFile
  | st, 0 => .ok st
  | st, n + 1 =>
    match writeF compress st (List.replicate 1024 0) with
    | .error e => .error e
    | .ok st' => padWrites compress st' n

/-- `LzoFile.seek(offset, whence)` restricted to its WRITE-mode branch
(whence 0 = SET, 1 = CUR, anything else a `ValueError`): backward seek is
an `IOError`, forward seek pads with zero writes, and the call returns
`self.offset` — which `write` never advanced. -/
def seekW (compress : List Nat → Nat → Nat → List Nat) (st : LzoFile)
    (offset : Int) (whence : Nat) : Except PyErr (LzoFile × Int) :=
  match (if whence = 0 then .ok offset
         else if whence = 1 then .ok ((st.offset : Int) + offset)
         else .error .valueError : Except PyErr Int) with
  | .error e => .error e
  | .ok off =>
  if off < (st.offset : Int) then .error .ioError
  else
  let count := (off - (st.offset : Int)).toNat
  match padWrites compress st (count / 1024) with
  | .error e => .error e
  | .ok st =>
  match writeF compress st (List.replicate (count % 1024) 0) with
  | .error e => .error e
  | .ok st => .ok (st, (st.offset : Int))

/-- The buffer-accounting invariant `self._buf_len = sum of lengths of
self._buf` that `_read_from_buf` is written against (and fails to
maintain in its exact-boundary branch). -/
def bufAccurate (st : LzoFile) : Prop :=
  st.buf_len = (st.buf.map List.length).sum

instance (st : LzoFile) : Decidable (bufAccurate st) := by
  unfold bufAccurate; infer_instance

/-- Full WRITE-then-READ pipeline: build the container for `content`, open
it for reading (checksum verification on) and `read(-1)`. -/
def roundtripBytes (compress : List Nat → Nat → Nat → List Nat)
    (dec : List Nat → Nat → List Nat) (name content : List Nat) :
    Except PyErr (List Nat) :=
  match openRead true (writeFile compress name content) with
  | .error e => .error e
  | .ok st => (readF dec (-1) st).map Prod.fst

theorem read_c_exact (xs rest : List Nat) (a : Nat) :
    read_c xs.length ⟨xs ++ rest, a⟩ = (xs, ⟨rest, lzo_adler32 xs a⟩) := by
  simp [read_c, take_append_len, drop_append_len]

theorem read16_c_exact (v : Nat) (hv : v < 65536) (rest : List Nat) (a : Nat) :
    read16_c ⟨be16 v ++ rest, a⟩ = .ok (v, ⟨rest, lzo_adler32 (be16 v) a⟩) := by
  unfold read16_c
  rw [show (2 : Nat) = (be16 v).length from rfl, read_c_exact]
  simp [be16_length, beVal_be16 v hv]

theorem read32_c_exact (v : Nat) (hv : v < 4294967296) (rest : List Nat) (a : Nat) :
    read32_c ⟨be32 v ++ rest, a⟩ = .ok (v, ⟨rest, lzo_adler32 (be32 v) a⟩) := by
  unfold read32_c
  rw [show (4 : Nat) = (be32 v).length from rfl, read_c_exact]
  simp [be32_length, beVal_be32 v hv]

theorem read8_c_exact (v : Nat) (rest : List Nat) (a : Nat) :
    read8_c ⟨v :: rest, a⟩ = .ok (v, ⟨rest, lzo_adler32 [v] a⟩) := by
  unfold read8_c
  rw [show (1 : Nat) = ([v] : List Nat).length from rfl,
    show (v :: rest : List Nat) = [v] ++ rest from rfl, read_c_exact]

theorem read32r_exact (v : Nat) (hv : v < 4294967296) (rest : List Nat) (a : Nat) :
    read32r ⟨be32 v ++ rest, a⟩ = .ok (v, ⟨rest, a⟩) := by
  unfold read32r
  rw [show (4 : Nat) = (be32 v).length from rfl, take_append_len, drop_append_len]
  simp [be32_length, beVal_be32 v hv]

theorem read32r_exact_list (fb : List Nat) (hfb : fb.length = 4) (rest : List Nat) (a : Nat) :
    read32r ⟨fb ++ rest, a⟩ = .ok (beVal fb, ⟨rest, a⟩) := by
  unfold read32r
  rw [show (4 : Nat) = fb.length from hfb.symm, take_append_len, drop_append_len]
  simp [hfb]

theorem u32_exact (v : Nat) (hv : v < 4294967296) (rest : List Nat) :
    u32 (be32 v ++ rest) = .ok (v, rest) := by
  unfold u32
  rw [show (4 : Nat) = (be32 v).length from rfl, take_append_len, drop_append_len]
  simp [be32_length, beVal_be32 v hv]

theorem writerFlags_eq : writerFlags = 3 := rfl

theorem writeHeaderBytes_eq (name : List Nat) :
    writeHeaderBytes name =
      headerCoreW name ++ be32 (lzo_adler32 (headerCoreW name) 1) := by
  by_cases h : 0 < name.length
  · simp [writeHeaderBytes, write_header, write16_c, write32_c, write8_c, write_c,
      headerCoreW, h, adler_append, List.append_assoc, LZOP_VERSION, LZO_LIB_VERSION,
      writerFlags_eq, WRITE, ADLER32_INIT_VALUE]
  · have hn : name = [] := List.length_eq_zero.mp (Nat.eq_zero_of_not_pos h)
    subst hn
    simp [writeHeaderBytes, write_header, write16_c, write32_c, write8_c, write_c,
      headerCoreW, adler_append, List.append_assoc, LZOP_VERSION, LZO_LIB_VERSION,
      writerFlags_eq, WRITE, ADLER32_INIT_VALUE]

theorem adler_nil (a : Nat) : lzo_adler32 [] a = a := rfl

/-- Parsing a writer-shaped header (fields as `_write_header` lays them
out) with an arbitrary stored checksum word `c`: the parse succeeds exactly
when `c` equals the Adler-32 (from state 1) of the version-through-name
bytes, and fails the checksum assert otherwise. -/
theorem read_header_corew (name : List Nat) (c : Nat) (hc : c < 4294967296)
    (rest : List Nat) (a : Nat) :
    read_header true ⟨headerCoreW name ++ (be32 c ++ rest), a⟩ =
      if lzo_adler32 (headerCoreW name) 1 = c then
        .ok ({ version := 0x1030, libver := 0x0940, ver_need_ext := some 0x0940,
               method := 1, level := some 1, flags := 3, ffilter := none,
               compress_mode := 2, mtime_low := 0, mtime_high := some 0,
               name := name, header_checksum := c, extra := none },
             ⟨rest, lzo_adler32 (be32 c) (lzo_adler32 (headerCoreW name) 1)⟩)
      else .error .assertError := by
  have h1 : (3 : Nat) &&& 4096 = 0 := by decide
  have h2 : (3 : Nat) &&& 2048 = 0 := by decide
  have h3 : (3 : Nat) &&& 64 = 0 := by decide
  simp only [read_header, headerCoreW, List.append_assoc, List.cons_append,
    List.singleton_append, ADLER32_INIT_VALUE, LZOP_VERSION, CRC32_INIT_VALUE,
    F_H_CRC32, F_H_FILTER, F_H_EXTRA_FIELD]
  simp [read16_c_exact 0x1030 (by decide), read16_c_exact 0x0940 (by decide),
    read8_c_exact, read_c_exact,
    read32_c_exact 3 (by decide), read32_c_exact 2 (by decide),
    read32_c_exact 0 (by decide), read32_c_exact c hc,
    h1, h2, h3, adler_append, List.append_assoc, ite_not]

/-- A minimal header (version 0x0940, method 1, level 1, empty name, all
optional fields absent) carrying an arbitrary flags word `F`; the trailing
checksum is the Adler-32 of everything before it. -/
def flagsCore (F : Nat) : List Nat :=
  be16 0x0940 ++ be16 0x0940 ++ [1] ++ [1] ++ be32 F ++ be32 0 ++ be32 0 ++
    be32 0 ++ [0]

def mkFlagsHeader (F : Nat) : List Nat :=
  flagsCore F ++ be32 (lzo_adler32 (flagsCore F) 1)

/-- `_read_header` stores the flags word exactly as read — no `F_MASK`
masking — whenever the `H_CRC32`, `H_FILTER` and `H_EXTRA_FIELD` bits are
clear so that the fixed layout applies; the stored checksum word `c` is
compared against the Adler-32 of the bytes before it. -/
theorem read_header_flagsc (F c : Nat) (hF : F < 4294967296)
    (hc : c < 4294967296) (hcrc : F &&& F_H_CRC32 = 0)
    (hfil : F &&& F_H_FILTER = 0) (hext : F &&& F_H_EXTRA_FIELD = 0)
    (rest : List Nat) (a : Nat) :
    read_header true ⟨flagsCore F ++ (be32 c ++ rest), a⟩ =
      if lzo_adler32 (flagsCore F) 1 = c then
        .ok ({ version := 0x0940, libver := 0x0940, ver_need_ext := none,
               method := 1, level := some 1, flags := F, ffilter := none,
               compress_mode := 0, mtime_low := 0, mtime_high := some 0,
               name := [], header_checksum := c, extra := none },
             ⟨rest, lzo_adler32 (be32 c) (lzo_adler32 (flagsCore F) 1)⟩)
      else .error .assertError := by
  simp only [flagsCore, List.append_assoc, List.cons_append,
    List.singleton_append, F_H_CRC32, F_H_FILTER, F_H_EXTRA_FIELD]
    at hcrc hfil hext ⊢
  simp [read_header, read16_c_exact 0x0940 (by decide), read8_c_exact, read_c,
    adler_nil, read32_c_exact F hF, read32_c_exact 0 (by decide),
    read32_c_exact c hc, hcrc, hfil, hext, adler_append, List.append_assoc,
    ite_not, F_H_CRC32, F_H_FILTER, F_H_EXTRA_FIELD, ADLER32_INIT_VALUE,
    CRC32_INIT_VALUE, LZOP_VERSION, List.cons_append, List.singleton_append]

/-- A set `H_CRC32` bit aborts the decode with the `_lzo.error` raise right
after the flags word is consumed. -/
theorem read_header_hcrc32 (F : Nat) (hF : F < 4294967296)
    (hcrc : F &&& F_H_CRC32 ≠ 0) (rest : List Nat) (a : Nat) :
    read_header true ⟨flagsCore F ++ rest, a⟩ = .error .lzoError := by
  simp only [flagsCore, List.append_assoc, List.cons_append,
    List.singleton_append, F_H_CRC32] at hcrc ⊢
  simp [read_header, read16_c_exact 0x0940 (by decide), read8_c_exact,
    read32_c_exact F hF, hcrc, F_H_CRC32, ADLER32_INIT_VALUE, LZOP_VERSION]

/-- A minimal header carrying flags `F` with `H_FILTER` set and a 4-byte
filter field (the big-endian encoding of `v`) between flags and file-mode. -/
def filtCore1 (F : Nat) : List Nat :=
  be16 0x0940 ++ be16 0x0940 ++ [1] ++ [1] ++ be32 F

def filtCore2 : List Nat := be32 0 ++ be32 0 ++ be32 0 ++ [0]

set_option maxRecDepth 8192 in
/-- With `H_FILTER` set, `_read_header` consumes the filter word with the
raw (untracked) `_read32`: the parse succeeds for any filter value `v`
exactly when the stored checksum word `c` equals the Adler-32 of the
non-filter header bytes — the filter bytes are not fed to the checksum
engine the verification compares against. -/
theorem read_header_filterc (F v c : Nat) (hF : F < 4294967296)
    (hv : v < 4294967296) (hc : c < 4294967296)
    (hcrc : F &&& F_H_CRC32 = 0) (hfil : F &&& F_H_FILTER ≠ 0)
    (hext : F &&& F_H_EXTRA_FIELD = 0) (rest : List Nat) (a : Nat) :
    read_header true
        ⟨filtCore1 F ++ (be32 v ++ (filtCore2 ++ (be32 c ++ rest))), a⟩ =
      if lzo_adler32 (filtCore1 F ++ filtCore2) 1 = c then
        .ok ({ version := 0x0940, libver := 0x0940, ver_need_ext := none,
               method := 1, level := some 1, flags := F,
               ffilter := some v, compress_mode := 0,
               mtime_low := 0, mtime_high := some 0, name := [],
               header_checksum := c, extra := none },
             ⟨rest, lzo_adler32 (be32 c)
                      (lzo_adler32 (filtCore1 F ++ filtCore2) 1)⟩)
      else .error .assertError := by
  simp only [filtCore1, filtCore2, List.append_assoc, List.cons_append,
    List.singleton_append, F_H_CRC32, F_H_FILTER, F_H_EXTRA_FIELD]
    at hcrc hfil hext ⊢
  simp [read_header, read16_c_exact 0x0940 (by decide), read8_c_exact, read_c,
    adler_nil, read32r_exact v hv, read32_c_exact F hF,
    read32_c_exact 0 (by decide), read32_c_exact c hc,
    hcrc, hfil, hext, adler_append, List.append_assoc, ite_not, F_H_CRC32,
    F_H_FILTER, F_H_EXTRA_FIELD, ADLER32_INIT_VALUE, CRC32_INIT_VALUE,
    LZOP_VERSION, List.cons_append, List.singleton_append]

theorem read_block_term (dec : List Nat → Nat → List Nat) (flags : Nat)
    (verify : Bool) (rest : List Nat) :
    read_block dec flags verify (be32 0 ++ rest) = .ok (none, rest) := by
  simp [read_block, u32_exact 0 (by decide)]

/-- Reading back one block that `_write_block` framed under the writer's
flags (`ADLER32_D | ADLER32_C` = 3) recovers the plaintext exactly and
consumes exactly the block record, provided the external primitives are
inverse on it. -/
theorem read_block_writer (dec : List Nat → Nat → List Nat)
    (compress : List Nat → Nat → Nat → List Nat)
    (b rest : List Nat) (hdec : dec (compress b 1 1) b.length = b)
    (hne : b ≠ []) (hle : b.length ≤ BLOCK_SIZE) :
    read_block dec 3 true (write_block compress 1 1 b ++ rest) =
      .ok (some b, rest) := by
  have hb0 : ¬ (b.length = 0) := by
    have := List.length_pos.mpr hne
    omega
  have hblt : b.length < 4294967296 := by
    have : BLOCK_SIZE = 131072 := rfl
    omega
  have hmax : ¬ (MAX_BLOCK_SIZE < b.length) := by
    have : MAX_BLOCK_SIZE = 67108864 := rfl
    have : BLOCK_SIZE = 131072 := rfl
    omega
  have f1 : (3 : Nat) &&& F_ADLER32_D ≠ 0 := by decide
  have f2 : (3 : Nat) &&& F_ADLER32_C ≠ 0 := by decide
  have f3 : (3 : Nat) &&& F_CRC32_D = 0 := by decide
  have f4 : (3 : Nat) &&& F_CRC32_C = 0 := by decide
  have hd : lzo_adler32 b ADLER32_INIT_VALUE < 4294967296 :=
    adler_lt _ _ (by decide)
  by_cases h : (compress b 1 1).length < b.length
  · have hC : (compress b 1 1).length < 4294967296 := by omega
    have hca : lzo_adler32 (compress b 1 1) ADLER32_INIT_VALUE < 4294967296 :=
      adler_lt _ _ (by decide)
    simp only [write_block, if_neg hb0, if_pos h, List.append_assoc]
    simp [read_block, u32_exact b.length hblt, u32_exact _ hC, u32_exact _ hd,
      u32_exact _ hca, hb0, hmax, f1, f2, f3, f4, h, getVar,
      take_append_len, drop_append_len, hdec]
  · simp only [write_block, if_neg hb0, if_neg h, List.append_assoc]
    simp [read_block, u32_exact b.length hblt, u32_exact _ hd, hb0, hmax,
      f1, f2, f3, f4, h, getVar, take_append_len, drop_append_len]

theorem joinl_length (xs : List (List Nat)) :
    (joinl xs).length = (xs.map List.length).sum := by
  induction xs with
  | nil => rfl
  | cons b r ih => simp [joinl, ih]

theorem joinl_nil_of_sum_zero (xs : List (List Nat))
    (h : (xs.map List.length).sum = 0) : joinl xs = [] := by
  have := joinl_length xs
  exact List.length_eq_zero.mp (by omega)

theorem chunksF_join (fuel : Nat) : ∀ c : List Nat, joinl (chunksF fuel c) = c := by
  induction fuel with
  | zero => intro c; simp [chunksF, joinl]
  | succ f ih =>
    intro c
    by_cases h : BLOCK_SIZE < c.length
    · simp [chunksF, h, joinl, ih, List.take_append_drop]
    · simp [chunksF, h, joinl]

theorem chunks_join (c : List Nat) : joinl (chunks c) = c := chunksF_join _ c

theorem chunksF_mem (fuel : Nat) : ∀ c b : List Nat, c ≠ [] → c.length ≤ fuel →
    b ∈ chunksF fuel c → b ≠ [] ∧ b.length ≤ BLOCK_SIZE := by
  induction fuel with
  | zero =>
    intro c b hne hle
    have : c = [] := List.length_eq_zero.mp (by omega)
    exact absurd this hne
  | succ f ih =>
    intro c b hne hle hmem
    have hbs : BLOCK_SIZE = 131072 := rfl
    by_cases h : BLOCK_SIZE < c.length
    · simp only [chunksF, if_pos h, List.mem_cons] at hmem
      rcases hmem with rfl | hmem
      · constructor
        · have hlen : (c.take BLOCK_SIZE).length = BLOCK_SIZE := by
            simp
            omega
          intro hb
          rw [hb] at hlen
          simp at hlen
          rw [hbs] at hlen
          exact absurd hlen.symm (by decide)
        · simp
      · refine ih (c.drop BLOCK_SIZE) b ?_ ?_ hmem
        · intro hd
          have := congrArg List.length hd
          simp at this
          omega
        · simp
          omega
    · simp only [chunksF, if_neg h, List.mem_singleton] at hmem
      subst hmem
      exact ⟨hne, by omega⟩

theorem chunks_mem (c b : List Nat) (hne : c ≠ []) (hmem : b ∈ chunks c) :
    b ≠ [] ∧ b.length ≤ BLOCK_SIZE :=
  chunksF_mem c.length c b hne (le_refl _) hmem

theorem write_block_len_ge (compress : List Nat → Nat → Nat → List Nat)
    (method level : Nat) (b : List Nat) :
    4 ≤ (write_block compress method level b).length := by
  simp only [write_block, List.length_append, be32_length]
  omega

theorem blocks_le_joinl (compress : List Nat → Nat → Nat → List Nat)
    (blocks : List (List Nat)) :
    blocks.length ≤ (joinl (blocks.map (write_block compress 1 1))).length := by
  induction blocks with
  | nil => simp [joinl]
  | cons b bs ih =>
    have h4 := write_block_len_ge compress 1 1 b
    simp only [List.map_cons, joinl, List.length_append, List.length_cons]
    omega

/-- The fetch loop stops immediately on the u32-zero terminator. -/
theorem read_fillF_term (dec : List Nat → Nat → List Nat) (flags : Nat)
    (verify : Bool) (fuel : Nat) (hf : 1 ≤ fuel) (rest : List Nat)
    (buf : List (List Nat)) (bl : Nat) :
    read_fillF dec flags verify (-1) fuel (be32 0 ++ rest) buf bl =
      .ok (rest, buf, bl) := by
  obtain ⟨f, rfl⟩ : ∃ f, fuel = f + 1 := ⟨fuel - 1, by omega⟩
  simp [read_fillF, read_block_term]

/-- The fetch loop of `read(-1)` consumes every writer-framed block in
order, enqueues the recovered plaintexts, and stops at the terminator. -/
theorem read_fillF_blocks (dec : List Nat → Nat → List Nat)
    (compress : List Nat → Nat → Nat → List Nat) :
    ∀ (blocks : List (List Nat)),
    (∀ b ∈ blocks, dec (compress b 1 1) b.length = b ∧ b ≠ [] ∧
      b.length ≤ BLOCK_SIZE) →
    ∀ (fuel : Nat) (buf : List (List Nat)) (bl : Nat) (rest : List Nat),
    blocks.length < fuel →
    read_fillF dec 3 true (-1) fuel
        (joinl (blocks.map (write_block compress 1 1)) ++ (be32 0 ++ rest)) buf bl =
      .ok (rest, buf ++ blocks, bl + (blocks.map List.length).sum) := by
  intro blocks
  induction blocks with
  | nil =>
    intro _ fuel buf bl rest hf
    simp only [List.map_nil, joinl, List.nil_append]
    rw [read_fillF_term dec 3 true fuel (by omega) rest buf bl]
    simp
  | cons b bs ih =>
    intro hbl fuel buf bl rest hf
    obtain ⟨f, rfl⟩ : ∃ f, fuel = f + 1 := ⟨fuel - 1, by omega⟩
    obtain ⟨hdec, hne, hle⟩ := hbl b (List.mem_cons_self b bs)
    simp only [List.map_cons, joinl, List.append_assoc]
    rw [read_fillF]
    rw [read_block_writer dec compress b
      (joinl (bs.map (write_block compress 1 1)) ++ (be32 0 ++ rest)) hdec hne hle]
    simp only [if_neg hne]
    have hstep := ih (fun x hx => hbl x (List.mem_cons_of_mem b hx)) f (buf ++ [b])
      (bl + b.length) rest (by simp at hf ⊢; omega)
    simp only [hstep, List.append_assoc, List.singleton_append, List.map_cons,
      List.sum_cons]
    simp [Nat.add_assoc]

theorem joinl_append (xs ys : List (List Nat)) :
    joinl (xs ++ ys) = joinl xs ++ joinl ys := by
  induction xs with
  | nil => simp [joinl]
  | cons b r ih => simp [joinl, ih, List.append_assoc]

/-- Draining exactly the buffered total returns the concatenation of the
whole FIFO in insertion order. -/
theorem rfb_loop_all (bl : Nat) :
    ∀ (buf : List (List Nat)) (r : Nat) (res : List (List Nat)),
    (rfb_loop bl (r + (buf.map List.length).sum) buf r res).1 =
      joinl res ++ joinl buf := by
  intro buf
  induction buf with
  | nil => intro r res; simp [rfb_loop, joinl]
  | cons b rest ih =>
    intro r res
    simp only [List.map_cons, List.sum_cons]
    by_cases h : 0 < (rest.map List.length).sum
    · have hlt : r + b.length < r + (b.length + (rest.map List.length).sum) := by omega
      rw [rfb_loop, if_pos hlt]
      have h2 := ih (r + b.length) (res ++ [b])
      rw [Nat.add_assoc] at h2
      rw [h2]
      simp [joinl_append, joinl, List.append_assoc]
    · have hz : (rest.map List.length).sum = 0 := by omega
      have heq : r + b.length = r + (b.length + (rest.map List.length).sum) := by omega
      rw [rfb_loop, if_neg (by omega), if_pos heq]
      have hrest : joinl rest = [] := joinl_nil_of_sum_zero rest hz
      simp [joinl_append, joinl, hrest]

/-- Whenever the buffered total is honest and covers the request, the drain
returns exactly `size` bytes. -/
theorem rfb_loop_len (bl : Nat) :
    ∀ (buf : List (List Nat)) (size r : Nat) (res : List (List Nat)),
    (res.map List.length).sum = r → r ≤ size →
    size ≤ r + (buf.map List.length).sum →
    ((rfb_loop bl size buf r res).1).length = size := by
  intro buf
  induction buf with
  | nil =>
    intro size r res hres hrs hsr
    simp only [rfb_loop, joinl_length, hres]
    simp at hsr
    omega
  | cons b rest ih =>
    intro size r res hres hrs hsr
    simp only [List.map_cons, List.sum_cons] at hsr
    by_cases h1 : r + b.length < size
    · rw [rfb_loop, if_pos h1]
      refine ih size (r + b.length) (res ++ [b]) ?_ (by omega) (by omega)
      simp [hres]
    · by_cases h2 : r + b.length = size
      · rw [rfb_loop, if_neg h1, if_pos h2]
        simp [joinl_length, hres]
        omega
      · rw [rfb_loop, if_neg h1, if_neg h2]
        have htk : (b.take (size - r)).length = size - r := by
          simp
          omega
        simp [joinl_length, hres, htk]
        omega

/-- The fetch loop preserves the buffer-accounting invariant: it only ever
appends blocks together with their lengths. -/
theorem read_fillF_sum (dec : List Nat → Nat → List Nat) (flags : Nat)
    (verify : Bool) (size : Int) :
    ∀ (fuel : Nat) (inp : List Nat) (buf : List (List Nat)) (bl : Nat)
      (inp2 : List Nat) (buf2 : List (List Nat)) (bl2 : Nat),
    read_fillF dec flags verify size fuel inp buf bl = .ok (inp2, buf2, bl2) →
    (buf.map List.length).sum = bl → (buf2.map List.length).sum = bl2 := by
  intro fuel
  induction fuel with
  | zero =>
    intro inp buf bl inp2 buf2 bl2 h hacc
    simp only [read_fillF] at h
    injection h with h
    injection h with h1 h
    injection h with h2 h3
    subst h2; subst h3
    exact hacc
  | succ f ih =>
    intro inp buf bl inp2 buf2 bl2 h hacc
    rw [read_fillF] at h
    split at h
    · cases hrb : read_block dec flags verify inp with
      | error e => rw [hrb] at h; exact absurd h (by simp)
      | ok p =>
        obtain ⟨ob, inp'⟩ := p
        rw [hrb] at h
        cases ob with
        | none =>
          simp only at h
          injection h with h
          injection h with h1 h
          injection h with h2 h3
          subst h2; subst h3
          exact hacc
        | some b =>
          simp only at h
          split at h
          · injection h with h
            injection h with h1 h
            injection h with h2 h3
            subst h2; subst h3
            exact hacc
          · refine ih inp' (buf ++ [b]) (bl + b.length) inp2 buf2 bl2 h ?_
            simp [hacc]
    · injection h with h
      injection h with h1 h
      injection h with h2 h3
      subst h2; subst h3
      exact hacc

theorem openRead_writeFile (compress : List Nat → Nat → Nat → List Nat)
    (name P : List Nat) :
    openRead true (writeFile compress name P) =
      .ok { mode := READ, fileobj := some (writeBody compress 1 1 P),
            method := 1, level := 1, flags := 3, verify := true, buf := [],
            buf_len := 0, offset := 0 } := by
  have hcks : lzo_adler32 (headerCoreW name) 1 < 4294967296 :=
    adler_lt _ 1 (by decide)
  unfold openRead writeFile
  rw [writeHeaderBytes_eq name, show (9 : Nat) = MAGIC.length from rfl,
    List.append_assoc, take_append_len, drop_append_len, List.append_assoc,
    read_header_corew name _ hcks (writeBody compress 1 1 P) ADLER32_INIT_VALUE,
    if_pos rfl]
  simp [READ]

/-- `read(-1)` on a container holding the empty payload returns the empty
byte string: the zero-length block record stops the fetch loop at once. -/
theorem roundtripBytes_nil (compress : List Nat → Nat → Nat → List Nat)
    (dec : List Nat → Nat → List Nat) (name : List Nat) :
    roundtripBytes compress dec name [] = .ok [] := by
  unfold roundtripBytes
  rw [openRead_writeFile compress name []]
  have hbody : writeBody compress 1 1 [] = be32 0 ++ be32 0 := rfl
  simp only [readF, hbody, READ]
  rw [read_fillF_term dec 3 true ((be32 0 ++ be32 0).length + 1) (by simp)
    (be32 0) [] 0]
  simp [read_from_buf, rfb_loop, joinl, Except.map]

/-- The full WRITE-then-READ pipeline recovers any payload whenever the
external LZO primitives are inverse on every block. -/
theorem roundtripBytes_ok (compress : List Nat → Nat → Nat → List Nat)
    (dec : List Nat → Nat → List Nat) (name P : List Nat)
    (hinv : ∀ q m l, dec (compress q m l) q.length = q) :
    roundtripBytes compress dec name P = .ok P := by
  by_cases hP : P = []
  · subst hP
    exact roundtripBytes_nil compress dec name
  · unfold roundtripBytes
    rw [openRead_writeFile compress name P]
    have hbl : ∀ b ∈ chunks P, dec (compress b 1 1) b.length = b ∧ b ≠ [] ∧
        b.length ≤ BLOCK_SIZE := by
      intro b hb
      obtain ⟨h1, h2⟩ := chunks_mem P b hP hb
      exact ⟨hinv b 1 1, h1, h2⟩
    have hsum : ((chunks P).map List.length).sum = P.length := by
      rw [← joinl_length, chunks_join]
    have hfill := read_fillF_blocks dec compress (chunks P) hbl
      ((writeBody compress 1 1 P).length + 1) [] 0 []
      (by
        have h4 := blocks_le_joinl compress (chunks P)
        simp only [writeBody, List.length_append, be32_length]
        omega)
    rw [List.append_nil] at hfill
    rw [show joinl ((chunks P).map (write_block compress 1 1)) ++ be32 0 =
      writeBody compress 1 1 P from rfl] at hfill
    simp only [List.nil_append, Nat.zero_add, hsum] at hfill
    have hdrain := rfb_loop_all P.length (chunks P) 0 []
    rw [Nat.zero_add, hsum] at hdrain
    simp only [joinl, chunks_join, List.nil_append] at hdrain
    simp only [readF, READ]
    rw [hfill]
    simp [read_from_buf, hdrain, Except.map]

/-- C1.  For every payload P with |P| ≤ 16 MiB written through a WRITE
stream (writer name under the 255-byte assert), reading the produced
container back through a READ stream with `read(-1)` returns exactly P,
provided the external LZO primitive satisfies
`decompress(compress(P, m, l), |P|) = P`. -/
theorem claim_roundtrip (compress : List Nat → Nat → Nat → List Nat)
    (dec : List Nat → Nat → List Nat) (name P : List Nat)
    (_hname : name.length < 255) (_hsize : P.length ≤ 16777216)
    (hinv : ∀ q m l, dec (compress q m l) q.length = q) :
    roundtripBytes compress dec name P = .ok P :=
  roundtripBytes_ok compress dec name P hinv

theorem claim_roundtrip_witness :
    ([] : List Nat).length < 255 ∧ ([7, 8, 9] : List Nat).length ≤ 16777216 ∧
    roundtripBytes (fun b _ _ => b) (fun b n => b.take n) [] [7, 8, 9] =
      .ok [7, 8, 9] :=
  ⟨by decide, by decide,
    claim_roundtrip (fun b _ _ => b) (fun b n => b.take n) [] [7, 8, 9]
      (by decide) (by decide) (fun q _ _ => List.take_length q)⟩

set_option maxRecDepth 100000 in
/-- C2.  The WRITE-mode header emits the stream-mode constant `WRITE` (2)
in the file-mode slot (bytes 12–15 of the header): `_write_header` writes
`self.mode`, not the `compress_mode = 0` the constructor prepared, so the
emitted field is 2 where the claim requires 0. -/
theorem claim_header_filemode :
    ((writeHeaderBytes []).drop 12).take 4 = be32 WRITE ∧
    (read_header true ⟨writeHeaderBytes [], 1⟩).map (fun p => p.1.compress_mode) =
      .ok 2 ∧
    (2 : Nat) ≠ 0 :=
  ⟨by decide, by rfl, by decide⟩

set_option maxRecDepth 100000 in
/-- C3 counterexample.  A header whose raw flags word is 0x4000 parses
successfully and stores flags = 0x4000, while 0x4000 masked with `F_MASK`
is 0: the source never applies the mask, so the claim's stored value is
wrong at this input. -/
theorem claim_flags_mask_cex :
    (read_header true ⟨mkFlagsHeader 0x4000, 1⟩).map (fun p => p.1.flags) =
      .ok 0x4000 ∧
    0x4000 &&& F_MASK ≠ 0x4000 :=
  ⟨by rfl, by decide⟩

/-- C3 amended.  After the flags u32 is consumed the stored flags value
equals the raw u32 itself — no `F_MASK` masking — and a set `H_CRC32` bit
is a fatal-decode condition. -/
theorem claim_flags_unmasked (F c : Nat) (rest : List Nat) (a : Nat)
    (hF : F < 4294967296) (hc : c < 4294967296) :
    (F &&& F_H_CRC32 = 0 → F &&& F_H_FILTER = 0 → F &&& F_H_EXTRA_FIELD = 0 →
      lzo_adler32 (flagsCore F) 1 = c →
      (read_header true ⟨flagsCore F ++ (be32 c ++ rest), a⟩).map
        (fun p => p.1.flags) = .ok F) ∧
    (F &&& F_H_CRC32 ≠ 0 →
      read_header true ⟨flagsCore F ++ rest, a⟩ = .error .lzoError) := by
  constructor
  · intro h1 h2 h3 hck
    rw [read_header_flagsc F c hF hc h1 h2 h3 rest a, if_pos hck]
    rfl
  · intro h1
    exact read_header_hcrc32 F hF h1 rest a

set_option maxRecDepth 100000 in
theorem claim_flags_unmasked_witness :
    ((0x4000 : Nat) &&& F_H_CRC32 = 0 ∧
      (read_header true ⟨flagsCore 0x4000 ++
          (be32 (lzo_adler32 (flagsCore 0x4000) 1) ++ []), 1⟩).map
        (fun p => p.1.flags) = .ok 0x4000) ∧
    ((0x1000 : Nat) &&& F_H_CRC32 ≠ 0 ∧
      read_header true ⟨flagsCore 0x1000 ++ [], 1⟩ = .error .lzoError) :=
  ⟨⟨by decide,
    (claim_flags_unmasked 0x4000 (lzo_adler32 (flagsCore 0x4000) 1) [] 1
      (by decide) (by decide)).1 (by decide) (by decide) (by decide) rfl⟩,
   ⟨by decide,
    (claim_flags_unmasked 0x1000 0 [] 1 (by decide) (by decide)).2 (by decide)⟩⟩

set_option maxRecDepth 100000 in
/-- C4 counterexample.  A header with `H_FILTER` set and filter bytes
0xDEADBEEF parses successfully against a stored checksum covering only the
non-filter bytes; the Adler-32 over the byte range including the filter is
a different value, so the filter's four bytes were not fed to the checksum
engine that the verification compared against. -/
theorem claim_filter_untracked_cex :
    (read_header true ⟨filtCore1 0x800 ++ (be32 0xDEADBEEF ++ (filtCore2 ++
        (be32 (lzo_adler32 (filtCore1 0x800 ++ filtCore2) 1) ++ []))), 1⟩).map
      (fun p => (p.1.flags, p.1.ffilter)) = .ok (0x800, some 0xDEADBEEF) ∧
    lzo_adler32 (filtCore1 0x800 ++ (be32 0xDEADBEEF ++ filtCore2)) 1 ≠
      lzo_adler32 (filtCore1 0x800 ++ filtCore2) 1 :=
  ⟨by rfl, by decide⟩

/-- C4 amended.  With `H_FILTER` set the filter u32 is consumed by the raw
(untracked) `_read32`: for every filter word `v` the header parses against
the same stored checksum `c`, namely the Adler-32 of the header bytes
excluding the filter field, and the parsed filter is the raw word. -/
theorem claim_filter_raw (F v c : Nat) (rest : List Nat) (a : Nat)
    (hF : F < 4294967296) (hv : v < 4294967296) (hc : c < 4294967296)
    (hcrc : F &&& F_H_CRC32 = 0) (hfil : F &&& F_H_FILTER ≠ 0)
    (hext : F &&& F_H_EXTRA_FIELD = 0)
    (hck : lzo_adler32 (filtCore1 F ++ filtCore2) 1 = c) :
    (read_header true
        ⟨filtCore1 F ++ (be32 v ++ (filtCore2 ++ (be32 c ++ rest))), a⟩).map
      (fun p => (p.1.ffilter, p.1.header_checksum)) = .ok (some v, c) := by
  rw [read_header_filterc F v c hF hv hc hcrc hfil hext rest a, if_pos hck]
  rfl

set_option maxRecDepth 100000 in
theorem claim_filter_raw_witness :
    ((0x800 : Nat) &&& F_H_FILTER ≠ 0) ∧
    (read_header true ⟨filtCore1 0x800 ++ (be32 5 ++ (filtCore2 ++
        (be32 (lzo_adler32 (filtCore1 0x800 ++ filtCore2) 1) ++ []))), 1⟩).map
      (fun p => (p.1.ffilter, p.1.header_checksum)) =
      .ok (some 5, lzo_adler32 (filtCore1 0x800 ++ filtCore2) 1) :=
  ⟨by decide,
   claim_filter_raw 0x800 5 (lzo_adler32 (filtCore1 0x800 ++ filtCore2) 1) [] 1
     (by decide) (by decide) (by decide) (by decide) (by decide) (by decide) rfl⟩

/-- C5.  `seek(k, SET)` on a freshly constructed empty WRITE stream pads
with zero writes but returns the stale logical offset 0, not k: `write()`
never advances `self.offset`, so the claimed return value k is wrong (and
each padding `write()` call also appends its own u32-zero terminator). -/
theorem claim_seek_stale_offset (compress : List Nat → Nat → Nat → List Nat) :
    (seekW compress (openWrite []) 1 0).map Prod.snd = .ok 0 ∧ (0 : Int) ≠ 1 := by
  constructor
  · simp [seekW, padWrites, writeF, openWrite, Except.map]
  · decide

set_option maxRecDepth 100000 in
/-- C6 counterexample.  Writing the empty byte string produces a file of
length 46 = 9 (magic) + 29 (header) + 8, not 9 + header + 4: the empty
final window emits its own zero-length u32 before `write` appends the
u32-zero terminator. -/
theorem claim_empty_len_cex :
    (writeFile (fun b _ _ => b) [] []).length = 46 ∧
    (writeFile (fun b _ _ => b) [] []).length ≠
      9 + (writeHeaderBytes []).length + 4 :=
  ⟨by decide, by decide⟩

/-- C6 amended.  Writing the empty byte string produces a file of length
9 (magic) + header + 8 — the zero-length block marker u32 followed by the
terminator u32 — and reading it back with `read(-1)` yields the empty byte
string. -/
theorem claim_empty_file (compress : List Nat → Nat → Nat → List Nat)
    (dec : List Nat → Nat → List Nat) (name : List Nat)
    (_hname : name.length < 255) :
    (writeFile compress name []).length = 9 + (writeHeaderBytes name).length + 8 ∧
    roundtripBytes compress dec name [] = .ok [] := by
  constructor
  · have hbody : (writeBody compress 1 1 []).length = 8 := rfl
    simp only [writeFile, List.length_append, hbody,
      show MAGIC.length = 9 from rfl]
  · exact roundtripBytes_nil compress dec name

theorem claim_empty_file_witness :
    ([] : List Nat).length < 255 ∧
    ((writeFile (fun b _ _ => b) [] []).length =
      9 + (writeHeaderBytes []).length + 8 ∧
     roundtripBytes (fun b _ _ => b) (fun b n => b.take n) [] [] = .ok []) :=
  ⟨by decide, claim_empty_file (fun b _ _ => b) (fun b n => b.take n) []
    (by decide)⟩

/-- C7.  The writer's header checksum is the Adler-32 (state 1) over
exactly the header bytes from version through name inclusive, and the
reader's verification on a writer-shaped header compares the stored word
against the Adler-32 of that same byte range. -/
theorem claim_header_adler (name : List Nat) (c : Nat) (rest : List Nat)
    (a : Nat) (_hname : name.length < 255) (hc : c < 4294967296) :
    writeHeaderBytes name =
      headerCoreW name ++ be32 (lzo_adler32 (headerCoreW name) 1) ∧
    (read_header true ⟨headerCoreW name ++ (be32 c ++ rest), a⟩).map
      (fun p => p.1.header_checksum) =
      (if lzo_adler32 (headerCoreW name) 1 = c then .ok c
       else .error .assertError) := by
  refine ⟨writeHeaderBytes_eq name, ?_⟩
  rw [read_header_corew name c hc rest a]
  by_cases h : lzo_adler32 (headerCoreW name) 1 = c
  · rw [if_pos h, if_pos h]
    rfl
  · rw [if_neg h, if_neg h]
    rfl

set_option maxRecDepth 100000 in
theorem claim_header_adler_witness :
    ([] : List Nat).length < 255 ∧
    (writeHeaderBytes [] =
      headerCoreW [] ++ be32 (lzo_adler32 (headerCoreW []) 1) ∧
     (read_header true ⟨headerCoreW [] ++
         (be32 (lzo_adler32 (headerCoreW []) 1) ++ []), 1⟩).map
       (fun p => p.1.header_checksum) =
       (if lzo_adler32 (headerCoreW []) 1 = lzo_adler32 (headerCoreW []) 1
        then .ok (lzo_adler32 (headerCoreW []) 1) else .error .assertError)) :=
  ⟨by decide, claim_header_adler [] (lzo_adler32 (headerCoreW []) 1) [] 1
    (by decide) (by decide)⟩

/-- C8 counterexample.  `write` on a closed stream is not guarded by
`_check_closed`: it fails with the `AttributeError` of calling `.write` on
the released `None` file object, which is not the ClosedStream
`ValueError` the claim requires. -/
theorem claim_closed_write_cex :
    writeF (fun b _ _ => b) (closeF (openWrite [])) [0] = .error .attrError ∧
    PyErr.attrError ≠ PyErr.valueError :=
  ⟨rfl, by decide⟩

/-- C8 amended.  After `close()`, `read` raises the ClosedStream
`ValueError` (via `_check_closed`), but `write` has no closed-stream guard
and instead fails with an `AttributeError` on the released file object. -/
theorem claim_closed_ops (compress : List Nat → Nat → Nat → List Nat)
    (dec : List Nat → Nat → List Nat) (st : LzoFile) (n : Int)
    (content : List Nat) :
    readF dec n (closeF st) = .error .valueError ∧
    writeF compress (closeF st) content = .error .attrError := by
  constructor
  · simp [readF, closeF]
  · simp [writeF, closeF]

/-- A two-block stored-raw container (blocks "ab" and "cd", then the
terminator) laid out exactly as `_read_block` expects under flags
`ADLER32_D | ADLER32_C`. -/
def c9blocks : List Nat :=
  (be32 2 ++ (be32 2 ++ (be32 (lzo_adler32 [97, 98] 1) ++ [97, 98]))) ++
    ((be32 2 ++ (be32 2 ++ (be32 (lzo_adler32 [99, 100] 1) ++ [99, 100]))) ++
      be32 0)

def c9file : List Nat := MAGIC ++ writeHeaderBytes [] ++ c9blocks

/-- The READ-mode stream state right after construction on `c9file`. -/
def c9st0 : LzoFile :=
  { mode := READ, fileobj := some c9blocks, method := 1, level := 1, flags := 3,
    verify := true, buf := [], buf_len := 0, offset := 0 }

/-- The stream state after `read(2)` on `c9st0`: the drain ended exactly at
a block boundary, so `_buf_len` is left at the stale value 2 although the
buffer is empty. -/
def c9st1 : LzoFile :=
  { mode := READ,
    fileobj := some ((be32 2 ++ (be32 2 ++ (be32 (lzo_adler32 [99, 100] 1) ++
      [99, 100]))) ++ be32 0),
    method := 1, level := 1, flags := 3, verify := true, buf := [],
    buf_len := 2, offset := 2 }

set_option maxRecDepth 1000000 in
/-- C9 counterexample.  On `c9file`, `read(2)` drains exactly to a block
boundary and leaves the stale `_buf_len = 2`; the following `read(1)`
then skips the fetch loop, passes the assert, and returns the empty byte
string — fewer than 1 byte — without failing, even though 18 bytes of the
container (the second block and the terminator) are still unread. -/
theorem claim_short_read_cex :
    (Except.bind (openRead true c9file) (fun st =>
      Except.bind (readF (fun b _ => b) 2 st) (fun p =>
        readF (fun b _ => b) 1 p.2))).map
      (fun p => (p.1.length, (p.2.fileobj.getD []).length)) = .ok (0, 18) ∧
    (0 : Nat) < 1 :=
  ⟨by rfl, by decide⟩

/-- C9 amended.  On a READ stream whose buffered-byte counter matches its
buffer content (as on a freshly constructed stream), `read(n)` with n ≥ 0
either fails or returns exactly n bytes with the logical offset advanced
by n; the exact-boundary drain leaves the counter stale, after which a
short read becomes possible. -/
theorem claim_read_exact (dec : List Nat → Nat → List Nat) (st : LzoFile)
    (n : Int) (bytes : List Nat) (st2 : LzoFile) (hmode : st.mode = READ)
    (hacc : bufAccurate st) (hn : 0 ≤ n)
    (h : readF dec n st = .ok (bytes, st2)) :
    bytes.length = n.toNat ∧ st2.offset = st.offset + n.toNat := by
  unfold readF at h
  split at h
  · exact absurd h (by simp)
  · rename_i data hf
    rw [hmode] at h
    rw [if_neg (show ¬ (READ ≠ READ) from fun hh => hh rfl)] at h
    cases hfill : read_fillF dec st.flags st.verify n (data.length + 1) data
        st.buf st.buf_len with
    | error e => rw [hfill] at h; exact absurd h (by simp)
    | ok trip =>
      obtain ⟨data2, buf2, bl2⟩ := trip
      rw [hfill] at h
      simp only [] at h
      have hacc2 : (buf2.map List.length).sum = bl2 :=
        read_fillF_sum dec st.flags st.verify n (data.length + 1) data st.buf
          st.buf_len data2 buf2 bl2 hfill hacc.symm
      have hne : n ≠ -1 := by omega
      rw [if_neg hne] at h
      unfold read_from_buf at h
      by_cases hlt : bl2 < n.toNat
      · rw [if_pos hlt] at h
        exact absurd h (by simp)
      · rw [if_neg hlt] at h
        simp only [] at h
        injection h with h
        injection h with hbytes hst2
        constructor
        · rw [← hbytes]
          exact rfb_loop_len bl2 buf2 n.toNat 0 [] rfl (by omega)
            (by omega)
        · rw [← hst2]

set_option maxRecDepth 1000000 in
theorem claim_read_exact_witness :
    c9st0.mode = READ ∧ bufAccurate c9st0 ∧ (0 : Int) ≤ 2 ∧
    (([97, 98] : List Nat).length = (2 : Int).toNat ∧
     c9st1.offset = c9st0.offset + (2 : Int).toNat) :=
  ⟨rfl, by decide, by decide,
   claim_read_exact (fun b _ => b) c9st0 2 [97, 98] c9st1 rfl (by decide)
     (by decide) (by rfl)⟩

/-- C10.  Under flags with `ADLER32_C` set but `ADLER32_D` clear, reading
a stored-raw block (`compressed_len ≥ uncompressed_len`) fails with the
unbound-variable `NameError` from `c_adler32 = d_adler32` instead of
returning the plaintext; symmetrically for `CRC32_C` without `CRC32_D`. -/
theorem claim_raw_block_unbound (dec : List Nat → Nat → List Nat)
    (verify : Bool) (flags dst src : Nat) (rest : List Nat)
    (hdst0 : 0 < dst) (hdstmax : dst ≤ MAX_BLOCK_SIZE) (hsrc : dst ≤ src)
    (hdst32 : dst < 4294967296) (hsrc32 : src < 4294967296) :
    (flags &&& F_ADLER32_C ≠ 0 → flags &&& F_ADLER32_D = 0 →
      flags &&& F_CRC32_D = 0 →
      read_block dec flags verify (be32 dst ++ (be32 src ++ rest)) =
        .error .nameError) ∧
    (flags &&& F_ADLER32_C = 0 → flags &&& F_ADLER32_D = 0 →
      flags &&& F_CRC32_D = 0 → flags &&& F_CRC32_C ≠ 0 →
      read_block dec flags verify (be32 dst ++ (be32 src ++ rest)) =
        .error .nameError) := by
  have h0 : ¬ (dst = 0) := by omega
  have hmax : ¬ (MAX_BLOCK_SIZE < dst) := by omega
  have hslt : ¬ (src < dst) := by omega
  constructor
  · intro hC hD hcD
    simp [read_block, u32_exact dst hdst32, u32_exact src hsrc32, h0, hmax,
      hslt, hC, hD, hcD, getVar]
  · intro hC hD hcD hcC
    simp [read_block, u32_exact dst hdst32, u32_exact src hsrc32, h0, hmax,
      hslt, hC, hD, hcD, hcC, getVar]

theorem claim_raw_block_unbound_witness :
    ((2 : Nat) &&& F_ADLER32_C ≠ 0 ∧
     read_block (fun b _ => b) 2 false (be32 1 ++ (be32 1 ++ [])) =
       .error .nameError) ∧
    ((0x200 : Nat) &&& F_CRC32_C ≠ 0 ∧
     read_block (fun b _ => b) 0x200 false (be32 1 ++ (be32 1 ++ [])) =
       .error .nameError) :=
  ⟨⟨by decide, (claim_raw_block_unbound (fun b _ => b) false 2 1 1 []
      (by decide) (by decide) (by decide) (by decide) (by decide)).1
      (by decide) (by decide) (by decide)⟩,
   ⟨by decide, (claim_raw_block_unbound (fun b _ => b) false 0x200 1 1 []
      (by decide) (by decide) (by decide) (by decide) (by decide)).2
      (by decide) (by decide) (by decide) (by decide)⟩⟩
